import Mathlib

set_option maxHeartbeats 1000000

namespace Limeout

/-- A dense pixel buffer: height, width and a total pixel lookup function.
Out-of-range coordinates carry arbitrary values; every kernel operation below
clamps, reflects or skips out-of-bounds taps exactly where the source
(OpenCV primitives as used by the repository) does, so in-bounds results never
depend on them. -/
structure Img (A : Type) where
  h : Nat
  w : Nat
  pix : Nat → Nat → A

/-- A BGR pixel as stored by OpenCV: components (b, g, r), each 0..255. -/
abbrev BGRPix := Nat × Nat × Nat

/-- An RGBA pixel: components (r, g, b, a), each 0..255. -/
abbrev RGBAPix := Nat × Nat × Nat × Nat

/-- Crop of a pixel buffer: rectangle of size w0 x h0 whose top-left corner is
at column x0, row y0 of the source (mirrors the numpy slice
frame[y:y+h, x:x+w]). -/
def cropImg {A : Type} (f : Img A) (x0 y0 w0 h0 : Nat) : Img A :=
  Img.mk h0 w0 (fun y x => f.pix (y0 + y) (x0 + x))

/-- The rational one half, written as an explicitly reduced fraction so that
its numerator and denominator reduce definitionally (the 0.5 defaults of the
source). -/
def half : Rat := ⟨1, 2, by norm_num, Nat.coprime_one_left 2⟩

/-- Embedding of ChromaKeySettings from src/processing/chroma_key.py; the two
float strengths are modelled as rationals. -/
structure ChromaKeySettings where
  h_min : Nat := 35
  h_max : Nat := 85
  s_min : Nat := 50
  s_max : Nat := 255
  v_min : Nat := 50
  v_max : Nat := 255
  feather : Nat := 2
  spill_suppression : Rat := half
  defringe_transparent : Rat := 0
  erode_size : Nat := 1
  dilate_size : Nat := 1

/-- Embedding of the cv2.cvtColor BGR to HSV conversion for 8-bit pixels, per
the documented OpenCV formula: V = max(R,G,B), S = round(255 (V - min) / V)
(0 when V = 0), H = round(h / 2) where h is the hue angle in degrees
(h + 360 when negative). The hue is computed over the integers with the
common denominator d = V - min cleared: num / d is the hue in degrees and
round(num / (2 d)) = floor((num + d) / (2 d)). Returns (h, s, v). -/
def bgr2hsv (p : BGRPix) : Nat × Nat × Nat :=
  let b := p.1
  let g := p.2.1
  let r := p.2.2
  let v := max r (max g b)
  let mn := min r (min g b)
  let d := v - mn
  let s : Nat := if v = 0 then 0 else (2 * 255 * d + v) / (2 * v)
  let num : Int :=
    if d = 0 then 0
    else if v = r then 60 * ((g : Int) - (b : Int))
    else if v = g then 120 * (d : Int) + 60 * ((b : Int) - (r : Int))
    else 240 * (d : Int) + 60 * ((r : Int) - (g : Int))
  let num2 : Int := if num < 0 then num + 360 * (d : Int) else num
  let hh : Nat := if d = 0 then 0 else ((num2 + (d : Int)) / (2 * (d : Int))).toNat
  (hh, s, v)

/-- Embedding of the cv2.inRange test used by create_mask: inclusive bounds on
each of the three HSV components. -/
def inRangeHSV (s : ChromaKeySettings) (hsv : Nat × Nat × Nat) : Bool :=
  decide (s.h_min ≤ hsv.1) && decide (hsv.1 ≤ s.h_max) &&
  decide (s.s_min ≤ hsv.2.1) && decide (hsv.2.1 ≤ s.s_max) &&
  decide (s.v_min ≤ hsv.2.2) && decide (hsv.2.2 ≤ s.v_max)

/-- Embedding of ChromaKeyProcessor.create_mask: convert to HSV, build the
green mask with inRange (255 inside the range, 0 outside), then invert it
with bitwise_not (255 - v), so foreground is 255. -/
def create_mask (s : ChromaKeySettings) (frame : Img BGRPix) : Img Nat :=
  Img.mk frame.h frame.w (fun y x =>
    255 - (if inRangeHSV s (bgr2hsv (frame.pix y x)) then 255 else 0))

/-- Nearest integer to the square root of a natural number (never a tie, since
(2n-1)^2 = 4a has no solution), computed as the number of n with
(2n+1)^2 <= 4a; used by the elliptical kernel construction. -/
def roundSqrt (a : Nat) : Nat :=
  (List.range (a + 1)).countP (fun n => decide ((2 * n + 1) * (2 * n + 1) ≤ 4 * a))

/-- Membership of the relative offset (dy, dx) in the OpenCV elliptical
structuring element of size (2k+1) x (2k+1): row dy spans the columns
within round(sqrt(k^2 - dy^2)) of the center
(cv2.getStructuringElement MORPH_ELLIPSE with a square odd size). -/
def inEllipse (k : Nat) (dy dx : Int) : Bool :=
  decide (dy.natAbs ≤ k) &&
  decide (dx.natAbs ≤ roundSqrt (k * k - dy.natAbs * dy.natAbs))

/-- The mask values under the elliptical kernel of size (2k+1)^2 anchored at
(y, x), restricted to taps that are both inside the ellipse and inside the
hh x ww image bounds, enumerated in row-major order. -/
def morphVals (k hh ww : Nat) (m : Nat → Nat → Nat) (y x : Nat) : List Nat :=
  (List.range (2 * k + 1)).flatMap (fun i =>
    (List.range (2 * k + 1)).filterMap (fun j =>
      let dy : Int := (i : Int) - (k : Int)
      let dx : Int := (j : Int) - (k : Int)
      let yy : Int := (y : Int) + dy
      let xx : Int := (x : Int) + dx
      if inEllipse k dy dx && decide (0 ≤ yy) && decide (yy < (hh : Int)) &&
         decide (0 ≤ xx) && decide (xx < (ww : Int)) then
        some (m yy.toNat xx.toNat)
      else none))

/-- Embedding of cv2.erode with the elliptical kernel of size (2k+1)^2:
minimum over the in-bounds kernel support (the default morphology border
value is +infinity, so out-of-bounds taps never win the minimum; the fold is
seeded with the anchor pixel, which always belongs to the support). -/
def erode (k : Nat) (img : Img Nat) : Img Nat :=
  Img.mk img.h img.w (fun y x =>
    (morphVals k img.h img.w img.pix y x).foldl Nat.min (img.pix y x))

/-- Embedding of cv2.dilate with the elliptical kernel of size (2k+1)^2:
maximum over the in-bounds kernel support (default border value -infinity). -/
def dilate (k : Nat) (img : Img Nat) : Img Nat :=
  Img.mk img.h img.w (fun y x =>
    (morphVals k img.h img.w img.pix y x).foldl Nat.max (img.pix y x))

/-- Embedding of ChromaKeyProcessor.refine_mask: erode with an elliptical
kernel of size erode_size*2+1 when erode_size > 0, then dilate with a kernel
of size dilate_size*2+1 when dilate_size > 0. -/
def refine_mask (s : ChromaKeySettings) (mask : Img Nat) : Img Nat :=
  let m1 := if 0 < s.erode_size then erode s.erode_size mask else mask
  if 0 < s.dilate_size then dilate s.dilate_size m1 else m1

/-- Integer weights of the 1-D Gaussian kernel cv2 uses for sigma = 0 at odd
size n (to be normalised by their sum). For sizes 3, 5 and 7 OpenCV uses fixed
binary-fraction tables; the size 3 and 5 tables are the binomial rows, the
size 7 table is listed explicitly. Larger sizes (not exercised by any claim)
are modelled by the binomial row, approximating the sigma-derived kernel of
the library primitive. -/
def gaussWeights (n : Nat) : List Nat :=
  if n = 7 then [2, 7, 14, 18, 14, 7, 2]
  else (List.range n).map (Nat.choose (n - 1))

/-- Index reflection of the OpenCV default border BORDER_REFLECT_101, as a
closed form of its 2*len-2 periodic extension (0 when len <= 1, matching
cv2.borderInterpolate). -/
def reflect101 (p : Int) (len : Nat) : Nat :=
  if len ≤ 1 then 0
  else
    let m := 2 * len - 2
    let q := (p % (m : Int)).toNat
    if q < len then q else m - q

/-- Embedding of cv2.GaussianBlur on an 8-bit single-channel image with kernel
size 2k+1 and sigma 0: separable convolution with the gaussWeights kernel,
BORDER_REFLECT_101 edges, and a single round-to-nearest at the end (the
library accumulates both passes in fixed point and rounds once). -/
def gaussianBlur (k : Nat) (img : Img Nat) : Img Nat :=
  let n := 2 * k + 1
  let ws := gaussWeights n
  let t := ws.sum * ws.sum
  Img.mk img.h img.w (fun y x =>
    let s := ((List.range n).map (fun i =>
      ((List.range n).map (fun j =>
        ws.getD i 0 * ws.getD j 0 *
          img.pix (reflect101 ((y : Int) + (i : Int) - (k : Int)) img.h)
                  (reflect101 ((x : Int) + (j : Int) - (k : Int)) img.w))).sum)).sum
    (s + t / 2) / t)

/-- Embedding of ChromaKeyProcessor.apply_feathering: Gaussian blur with
kernel size feather*2+1 when feather > 0, otherwise the mask unchanged. -/
def apply_feathering (s : ChromaKeySettings) (mask : Img Nat) : Img Nat :=
  if s.feather = 0 then mask else gaussianBlur s.feather mask

/-- Clamp a rational to the interval [0, 255] (np.clip). -/
def clipQ (q : Rat) : Rat := max 0 (min q 255)

/-- Conversion of a clipped float to uint8: np.clip to [0,255] followed by
astype(np.uint8), which truncates toward zero. -/
def toU8 (q : Rat) : Nat := (Int.floor (clipQ q)).toNat

/-- Embedding of ChromaKeyProcessor.suppress_spill: identity when
spill_suppression <= 0; otherwise an edge band (5x5 elliptical dilation minus
erosion, two iterations each) weights the removal of the green excess over the
red/blue average, with 0.3 of the removed amount added back to red and blue.
Float arithmetic is modelled exactly over the rationals. -/
def suppress_spill (s : ChromaKeySettings) (frame : Img BGRPix) (mask : Img Nat) :
    Img BGRPix :=
  if s.spill_suppression ≤ 0 then frame
  else
    let dil := dilate 2 (dilate 2 mask)
    let ero := erode 2 (erode 2 mask)
    Img.mk frame.h frame.w (fun y x =>
      let e : Nat := dil.pix y x - ero.pix y x
      let b : Rat := ((frame.pix y x).1 : Rat)
      let g : Rat := ((frame.pix y x).2.1 : Rat)
      let r : Rat := ((frame.pix y x).2.2 : Rat)
      let avg_rb := (r + b) / 2
      let spill := max 0 (g - avg_rb)
      let edge_weight : Rat := (e : Rat) / 255
      let amount := spill * s.spill_suppression * edge_weight
      let g2 := clipQ (g - amount)
      let comp := amount * (3/10)
      let r2 := clipQ (r + comp)
      let b2 := clipQ (b + comp)
      (toU8 b2, toU8 g2, toU8 r2))

/-- Per-pixel body of ChromaKeyProcessor.defringe_transparent_areas, a pure
function of one BGR pixel and its mask value: classic despill
(green excess over max(R,B)) with an alpha-weighted extra correction (bell
curve 4a(1-a) on semi-transparent pixels, linear ramp 3a below alpha 0.3),
red/blue compensation, and the hard green clamp blended in when
strength > 0.5. Float constants are the corresponding rationals. -/
def defringePix (s : ChromaKeySettings) (p : BGRPix) (mv : Nat) : BGRPix :=
  let strength := s.defringe_transparent
  let b : Rat := (p.1 : Rat)
  let g : Rat := (p.2.1 : Rat)
  let r : Rat := (p.2.2 : Rat)
  let alpha : Rat := (mv : Rat) / 255
  let max_rb := max r b
  let gc := max 0 (g - max_rb)
  let stw : Rat := if 1/50 < alpha ∧ alpha < 49/50 then 4 * alpha * (1 - alpha) else 0
  let ew : Rat := if alpha < 3/10 then alpha * 3 else 0
  let cw := max stw ew
  let base := gc * strength
  let extra := gc * cw * strength * 2
  let tot := base + extra
  let gNew := clipQ (g - tot)
  let comp := tot * (2/5)
  let rNew := clipQ (r + comp * (3/5))
  let bNew := clipQ (b + comp * (2/5))
  let gFinal :=
    if 1/2 < strength then
      let mrb := max rNew bNew
      let fm : Rat := if alpha < 19/20 then 1 else 0
      let gcl := min gNew mrb
      let tt := fm * (strength - 1/2) * 2
      clipQ (gNew * (1 - tt) + gcl * tt)
    else gNew
  (toU8 bNew, toU8 gFinal, toU8 rNew)

/-- Embedding of ChromaKeyProcessor.defringe_transparent_areas: identity when
defringe_transparent <= 0, otherwise defringePix applied at every pixel. -/
def defringe_transparent_areas (s : ChromaKeySettings) (frame : Img BGRPix)
    (mask : Img Nat) : Img BGRPix :=
  if s.defringe_transparent ≤ 0 then frame
  else Img.mk frame.h frame.w (fun y x => defringePix s (frame.pix y x) (mask.pix y x))

/-- Embedding of ChromaKeyProcessor.process_frame: mask built by create_mask,
then refine_mask, then apply_feathering; color passed through suppress_spill
and defringe_transparent_areas; output reorders BGR to RGB and attaches the
mask as the alpha channel. -/
def process_frame (s : ChromaKeySettings) (frame : Img BGRPix) : Img RGBAPix :=
  let mask := apply_feathering s (refine_mask s (create_mask s frame))
  let c1 := suppress_spill s frame mask
  let c2 := defringe_transparent_areas s c1 mask
  Img.mk frame.h frame.w (fun y x =>
    ((c2.pix y x).2.2, (c2.pix y x).2.1, (c2.pix y x).1, mask.pix y x))

/-- The checkerboard background generated by preview_frame: 10-pixel tiles,
light gray (200,200,200) when (row_tile + col_tile) is even, else (150,150,150). -/
def checkerboardImg (hh ww : Nat) : Img BGRPix :=
  Img.mk hh ww (fun i j =>
    if (i / 10 + j / 10) % 2 = 0 then (200, 200, 200) else (150, 150, 150))

/-- Alpha blend of one 8-bit channel over a background value, in float
(processed * alpha + background * (1 - alpha)) followed by astype(np.uint8). -/
def blendU8 (p bg : Nat) (alpha : Rat) : Nat :=
  toU8 ((p : Rat) * alpha + (bg : Rat) * (1 - alpha))

/-- Embedding of ChromaKeyProcessor.preview_frame: same mask and color
pipeline as process_frame, then a composite over a solid color (bg_color,
modelled as the already-parsed (r, g, b) triple), else over the generated
checkerboard when show_checkerboard is true, else a hard cutout keeping
pixels only where the mask is nonzero. -/
def preview_frame (s : ChromaKeySettings) (frame : Img BGRPix)
    (show_checkerboard : Bool) (bg_color : Option (Nat × Nat × Nat)) : Img BGRPix :=
  let mask := apply_feathering s (refine_mask s (create_mask s frame))
  let processed := defringe_transparent_areas s (suppress_spill s frame mask) mask
  match bg_color with
  | some c =>
      Img.mk frame.h frame.w (fun y x =>
        let a := (mask.pix y x : Rat) / 255
        (blendU8 (processed.pix y x).1 c.2.2 a,
         blendU8 (processed.pix y x).2.1 c.2.1 a,
         blendU8 (processed.pix y x).2.2 c.1 a))
  | none =>
    if show_checkerboard then
      Img.mk frame.h frame.w (fun y x =>
        let a := (mask.pix y x : Rat) / 255
        let c := (checkerboardImg frame.h frame.w).pix y x
        (blendU8 (processed.pix y x).1 c.1 a,
         blendU8 (processed.pix y x).2.1 c.2.1 a,
         blendU8 (processed.pix y x).2.2 c.2.2 a))
    else
      Img.mk frame.h frame.w (fun y x =>
        if mask.pix y x ≠ 0 then processed.pix y x else (0, 0, 0))

/-- A tracked bounding box (x, y, w, h); x and y are kept as integers since
the search-region arithmetic in the source produces negative coordinates. -/
abbrev TrackBox := Int × Int × Nat × Nat

/-- The border_mode enumeration of StabilizationSettings. -/
inductive BorderMode
  | transparent
  | replicate
  | crop

/-- Embedding of StabilizationSettings from src/processing/stabilizer.py. -/
structure StabilizationSettings where
  enabled : Bool := false
  bounding_box : Option TrackBox := none
  reference_frame_idx : Nat := 0
  border_mode : BorderMode := BorderMode.transparent
  smoothing : Rat := 0
  match_threshold : Rat := half
  search_margin : Nat := 50

/-- Embedding of the PointStabilizer instance state: settings plus the
per-frame offsets, tracked boxes, analyzed flag, reference center and cached
template. Methods below are modelled as functions returning updated copies. -/
structure PointStabilizer where
  settings : StabilizationSettings
  offsets : List (Rat × Rat) := []
  tracking_boxes : List TrackBox := []
  analyzed : Bool := false
  reference_center : Option (Rat × Rat) := none
  template : Option (Img BGRPix) := none

/-- Embedding of cv2.cvtColor BGR to GRAY on 8-bit pixels: the fixed-point
formula round(0.299 R + 0.587 G + 0.114 B) with 14-bit coefficients
(R*4899 + G*9617 + B*1868 + 8192) >> 14 used by the library. -/
def grayPix (p : BGRPix) : Nat :=
  (1868 * p.1 + 9617 * p.2.1 + 4899 * p.2.2 + 8192) / 16384

/-- Grayscale conversion of a whole BGR buffer. -/
def grayImg (f : Img BGRPix) : Img Nat :=
  Img.mk f.h f.w (fun y x => grayPix (f.pix y x))

/-- A TM_CCOEFF_NORMED correlation score, represented exactly as an integer
pair (num, den2) whose value is num / sqrt(den2) (both entries carry the same
N and N^2 scaling by the window pixel count, which cancels in the value),
with value 0 when den2 = 0. Scores are only consulted for templates of
nonzero variance (bestMatch short-circuits flat templates the way the
library does), so den2 = 0 means a zero-variance window, which forces
num = 0 and where the guarded per-pixel normalisation of the library yields
0. Kept unevaluated so comparisons stay exact. -/
abbrev Score := Int × Int

/-- Whether a represented score has value 0 (zero-variance window under a
non-flat template). -/
def scoreZero (a : Score) : Bool := decide (a.2 ≤ 0) || decide (a.1 = 0)

/-- Decidable strict comparison of two represented correlation scores
num / sqrt(den2), by sign analysis and squaring; used for the minMaxLoc
maximum scan. -/
def scoreLt (a b : Score) : Bool :=
  if scoreZero a then (!scoreZero b) && decide (0 < b.1)
  else if scoreZero b then decide (a.1 < 0)
  else if a.1 < 0 then
    if b.1 < 0 then decide (b.1 * b.1 * a.2 < a.1 * a.1 * b.2) else true
  else if b.1 < 0 then false
  else decide (a.1 * a.1 * b.2 < b.1 * b.1 * a.2)

/-- Decidable comparison of a represented score num / sqrt(den2) against a
rational threshold t, again by sign analysis and squaring (t enters as the
fraction t.num / t.den). -/
def scoreLtQ (a : Score) (t : Rat) : Bool :=
  if scoreZero a then decide (0 < t.num)
  else if a.1 < 0 then
    if 0 ≤ t.num then true
    else decide (t.num * t.num * a.2 < a.1 * a.1 * ((t.den : Int) * (t.den : Int)))
  else if t.num ≤ 0 then false
  else decide (a.1 * a.1 * ((t.den : Int) * (t.den : Int)) < t.num * t.num * a.2)

/-- Sum of an integer-valued function over the grid [0,hh) x [0,ww). -/
def sum2 (hh ww : Nat) (g : Nat → Nat → Int) : Int :=
  ((List.range hh).map (fun i => ((List.range ww).map (fun j => g i j)).sum)).sum

/-- The TM_CCOEFF_NORMED score of placing a template of nonzero variance
with its top-left corner at row py, column px of the search area (the
zero-variance template case never reaches the per-placement scores: the
library fills the whole result with 1.0 first, mirrored in bestMatch): both
patches are centered by their means; num is their inner product and den2 the
product of their squared norms. To stay in the integers the mean
subtractions are cleared by the window pixel count N: num is N times and
den2 is N^2 times the usual quantities, leaving the value num / sqrt(den2)
unchanged. -/
def ccoeffScore (area templ : Img Nat) (py px : Nat) : Score :=
  let nN : Int := ((templ.h * templ.w : Nat) : Int)
  let sT := sum2 templ.h templ.w (fun i j => (templ.pix i j : Int))
  let sI := sum2 templ.h templ.w (fun i j => (area.pix (py + i) (px + j) : Int))
  let sTT := sum2 templ.h templ.w (fun i j => (templ.pix i j : Int) * (templ.pix i j : Int))
  let sII := sum2 templ.h templ.w
    (fun i j => (area.pix (py + i) (px + j) : Int) * (area.pix (py + i) (px + j) : Int))
  let sTI := sum2 templ.h templ.w
    (fun i j => (templ.pix i j : Int) * (area.pix (py + i) (px + j) : Int))
  (nN * sTI - sT * sI, (nN * sTT - sT * sT) * (nN * sII - sI * sI))

/-- The N-scaled variance N * sum(T^2) - (sum T)^2 of a grayscale template,
zero exactly when the template is constant. -/
def templVar (templ : Img Nat) : Int :=
  let sT := sum2 templ.h templ.w (fun i j => (templ.pix i j : Int))
  let sTT := sum2 templ.h templ.w (fun i j => (templ.pix i j : Int) * (templ.pix i j : Int))
  ((templ.h * templ.w : Nat) : Int) * sTT - sT * sT

/-- Embedding of cv2.matchTemplate (TM_CCOEFF_NORMED) followed by
cv2.minMaxLoc on the result. The library special-cases a template whose
variance is (numerically) zero by filling the whole result matrix with 1.0
before any per-placement work, so minMaxLoc then reports maximum 1.0 at the
first location (0,0); otherwise it scans all placements in row-major order
and keeps the first strictly largest score. Returns (score, x, y) of the
best match location. -/
def bestMatch (area templ : Img Nat) : Score × Nat × Nat :=
  if templVar templ = 0 then ((1, 1), 0, 0)
  else
    let cand := (List.range (area.h - templ.h + 1)).flatMap (fun py =>
      (List.range (area.w - templ.w + 1)).map (fun px => (py, px)))
    (cand.foldl (fun acc c =>
        let sc := ccoeffScore area templ c.1 c.2
        match acc with
        | none => some (sc, c.2, c.1)
        | some b => if scoreLt b.1 sc then some (sc, c.2, c.1) else some b) none).getD
      ((0, 0), 0, 0)

/-- Search-region resolution of PointStabilizer._match_template: clamp the
region to the frame, fall back to the full frame when the clamped region is
smaller than the template; returns (search area, offset_x, offset_y). -/
def resolveSearch (fg : Img Nat) (tw th : Nat)
    (region : Option (Int × Int × Int × Int)) : Img Nat × Nat × Nat :=
  match region with
  | none => (fg, 0, 0)
  | some r =>
      let sx : Int := max 0 r.1
      let sy : Int := max 0 r.2.1
      let sw : Int := min r.2.2.1 ((fg.w : Int) - sx)
      let sh : Int := min r.2.2.2 ((fg.h : Int) - sy)
      if sw < (tw : Int) ∨ sh < (th : Int) then (fg, 0, 0)
      else (cropImg fg sx.toNat sy.toNat sw.toNat sh.toNat, sx.toNat, sy.toNat)

/-- Embedding of PointStabilizer._match_template: grayscale both images,
resolve the search region, return none when the search area is smaller than
the template or the best TM_CCOEFF_NORMED score is below match_threshold,
else the matched box (x, y, template w, template h) in frame coordinates. -/
def match_template (s : StabilizationSettings) (frame templ : Img BGRPix)
    (region : Option (Int × Int × Int × Int)) : Option TrackBox :=
  let fg := grayImg frame
  let tg := grayImg templ
  let r := resolveSearch fg tg.w tg.h region
  if r.1.h < tg.h ∨ r.1.w < tg.w then none
  else
    let best := bestMatch r.1 tg
    if scoreLtQ best.1 s.match_threshold then none
    else some (((r.2.1 : Nat) : Int) + (best.2.1 : Int), ((r.2.2 : Nat) : Int) + (best.2.2 : Int),
               tg.w, tg.h)

/-- Embedding of PointStabilizer._extract_template: clamp the box origin into
the frame and take the numpy slice frame[y:y+h, x:x+w] (whose actual extent
is clipped by the frame bounds). -/
def extract_template (frame : Img BGRPix) (bbox : TrackBox) : Img BGRPix :=
  let x : Int := max 0 (min bbox.1 ((frame.w : Int) - (bbox.2.2.1 : Int)))
  let y : Int := max 0 (min bbox.2.1 ((frame.h : Int) - (bbox.2.2.2 : Int)))
  cropImg frame x.toNat y.toNat
    (min bbox.2.2.1 ((frame.w : Int) - x).toNat)
    (min bbox.2.2.2 ((frame.h : Int) - y).toNat)

/-- The search region analyze_video builds around the last tracked box, with
its fixed 50-pixel margin. -/
def searchRegionOf (b : TrackBox) : Int × Int × Int × Int :=
  (b.1 - 50, b.2.1 - 50, (b.2.2.1 : Int) + 100, (b.2.2.2 : Int) + 100)

/-- The mutable state of the analyze_video frame loop: the offsets and
tracked-box lists built so far and the last successfully tracked box. -/
structure AnalyzeState where
  offsets : List (Rat × Rat)
  boxes : List TrackBox
  last_box : TrackBox

/-- One iteration of the analyze_video frame loop: constrained search around
the last box, full-frame fallback, then either record the matched box and the
offset of its center from the reference center, or (tracking lost) repeat the
previously recorded offset and box — (0,0) and the original box when the very
first frame already fails. The unreachable mixed branch (one list empty, the
other not, where the source would raise IndexError) also repeats defaults. -/
def analyzeStep (s : StabilizationSettings) (templ : Img BGRPix) (refC : Rat × Rat)
    (bbox : TrackBox) (st : AnalyzeState) (frame : Img BGRPix) : AnalyzeState :=
  let m1 := match_template s frame templ (some (searchRegionOf st.last_box))
  let m2 := match m1 with
    | some b => some b
    | none => match_template s frame templ none
  match m2 with
  | some b =>
      let cx : Rat := (b.1 : Rat) + (b.2.2.1 : Rat) / 2
      let cy : Rat := (b.2.1 : Rat) + (b.2.2.2 : Rat) / 2
      AnalyzeState.mk (st.offsets ++ [(refC.1 - cx, refC.2 - cy)]) (st.boxes ++ [b]) b
  | none =>
      match st.offsets.getLast?, st.boxes.getLast? with
      | some o, some lb =>
          AnalyzeState.mk (st.offsets ++ [o]) (st.boxes ++ [lb]) st.last_box
      | _, _ =>
          AnalyzeState.mk (st.offsets ++ [(0, 0)]) (st.boxes ++ [bbox]) st.last_box

/-- Embedding of PointStabilizer._reset_analysis. -/
def reset_analysis (st : PointStabilizer) : PointStabilizer :=
  { st with offsets := [], tracking_boxes := [], analyzed := false,
            reference_center := none, template := none }

/-- Embedding of PointStabilizer.analyze_video. The video source is modelled
as Option (List frame): none when the capture cannot be opened, otherwise the
decoded frames in order; seeking to the reference frame and reading it is the
list lookup, which fails (returning false) past the end of the video. On
success the loop state is installed, analyzed is set and true returned. -/
def analyze_video (st : PointStabilizer) (video : Option (List (Img BGRPix))) :
    PointStabilizer × Bool :=
  match st.settings.bounding_box with
  | none => (st, false)
  | some bbox =>
    let st1 := reset_analysis st
    match video with
    | none => (st1, false)
    | some frames =>
      match frames[st.settings.reference_frame_idx]? with
      | none => (st1, false)
      | some refFrame =>
        let templ := extract_template refFrame bbox
        let refC : Rat × Rat :=
          ((bbox.1 : Rat) + (bbox.2.2.1 : Rat) / 2, (bbox.2.1 : Rat) + (bbox.2.2.2 : Rat) / 2)
        let fin := frames.foldl (analyzeStep st.settings templ refC bbox)
          (AnalyzeState.mk [] [] bbox)
        ({ st1 with offsets := fin.offsets, tracking_boxes := fin.boxes,
                    analyzed := true, reference_center := some refC,
                    template := some templ }, true)

/-- Embedding of PointStabilizer.get_offset: (0,0) when unanalyzed or the
index is past the offsets list, else the stored offset. -/
def get_offset (st : PointStabilizer) (idx : Nat) : Rat × Rat :=
  if st.analyzed = false ∨ st.offsets.length ≤ idx then (0, 0)
  else st.offsets[idx]?.getD (0, 0)

/-- Embedding of PointStabilizer.get_tracked_box: the settings box when
unanalyzed or the index is past the tracked list, else the stored box. -/
def get_tracked_box (st : PointStabilizer) (idx : Nat) : Option TrackBox :=
  if st.analyzed = false ∨ st.tracking_boxes.length ≤ idx then st.settings.bounding_box
  else st.tracking_boxes[idx]?

/-- A BGRA pixel (b, g, r, a). -/
abbrev BGRAPix := Nat × Nat × Nat × Nat

/-- Embedding of cv2.cvtColor BGR2BGRA: attach an opaque alpha channel. -/
def cvtBGR2BGRA (f : Img BGRPix) : Img BGRAPix :=
  Img.mk f.h f.w (fun y x => ((f.pix y x).1, (f.pix y x).2.1, (f.pix y x).2.2, 255))

/-- Clamp an integer coordinate into [0, n) (BORDER_REPLICATE taps). -/
def clampI (v : Int) (n : Nat) : Nat :=
  if v < 0 then 0 else if (n : Int) ≤ v then n - 1 else v.toNat

/-- Round a rational to the nearest unsigned 8-bit value (interpolated values
are convex combinations of 0..255 samples, so no clipping is needed). -/
def roundU8 (q : Rat) : Nat := (Int.floor (q + 1/2)).toNat

/-- Bilinear interpolation of a sampled channel at the fractional source
coordinate (fy, fx), with taps supplied by the border policy. -/
def bilinearQ (tap : Int → Int → Rat) (fy fx : Rat) : Rat :=
  let y0 := Int.floor fy
  let x0 := Int.floor fx
  let ay := fy - (y0 : Rat)
  let ax := fx - (x0 : Rat)
  (1 - ay) * ((1 - ax) * tap y0 x0 + ax * tap y0 (x0 + 1)) +
    ay * ((1 - ax) * tap (y0 + 1) x0 + ax * tap (y0 + 1) (x0 + 1))

/-- Channel tap for a 3-channel image under either BORDER_REPLICATE (clamp)
or BORDER_CONSTANT (cval outside the frame). -/
def tap3 (src : Img BGRPix) (replicateB : Bool) (cval : BGRPix)
    (sel : BGRPix → Nat) (yy xx : Int) : Rat :=
  if replicateB then (sel (src.pix (clampI yy src.h) (clampI xx src.w)) : Rat)
  else if 0 ≤ yy ∧ yy < (src.h : Int) ∧ 0 ≤ xx ∧ xx < (src.w : Int) then
    (sel (src.pix yy.toNat xx.toNat) : Rat)
  else (sel cval : Rat)

/-- Channel tap for a 4-channel image. -/
def tap4 (src : Img BGRAPix) (replicateB : Bool) (cval : BGRAPix)
    (sel : BGRAPix → Nat) (yy xx : Int) : Rat :=
  if replicateB then (sel (src.pix (clampI yy src.h) (clampI xx src.w)) : Rat)
  else if 0 ≤ yy ∧ yy < (src.h : Int) ∧ 0 ≤ xx ∧ xx < (src.w : Int) then
    (sel (src.pix yy.toNat xx.toNat) : Rat)
  else (sel cval : Rat)

/-- Embedding of cv2.warpAffine for the pure translation matrix
[[1,0,dx],[0,1,dy]] on a 3-channel frame: dst(y, x) samples the source
bilinearly at (y - dy, x - dx) under the given border policy. -/
def warpTranslate3 (src : Img BGRPix) (dx dy : Rat) (replicateB : Bool)
    (cval : BGRPix) : Img BGRPix :=
  Img.mk src.h src.w (fun y x =>
    let fy := (y : Rat) - dy
    let fx := (x : Rat) - dx
    (roundU8 (bilinearQ (tap3 src replicateB cval (fun p => p.1)) fy fx),
     roundU8 (bilinearQ (tap3 src replicateB cval (fun p => p.2.1)) fy fx),
     roundU8 (bilinearQ (tap3 src replicateB cval (fun p => p.2.2)) fy fx)))

/-- Translation warp of a 4-channel frame. -/
def warpTranslate4 (src : Img BGRAPix) (dx dy : Rat) (replicateB : Bool)
    (cval : BGRAPix) : Img BGRAPix :=
  Img.mk src.h src.w (fun y x =>
    let fy := (y : Rat) - dy
    let fx := (x : Rat) - dx
    (roundU8 (bilinearQ (tap4 src replicateB cval (fun p => p.1)) fy fx),
     roundU8 (bilinearQ (tap4 src replicateB cval (fun p => p.2.1)) fy fx),
     roundU8 (bilinearQ (tap4 src replicateB cval (fun p => p.2.2.1)) fy fx),
     roundU8 (bilinearQ (tap4 src replicateB cval (fun p => p.2.2.2)) fy fx)))

/-- A frame of either 3 (BGR) or 4 (BGRA) channels, as accepted by
apply_stabilization. -/
inductive BFrame
  | c3 (img : Img BGRPix)
  | c4 (img : Img BGRAPix)

/-- Embedding of PointStabilizer.apply_stabilization: the frame unchanged
when unanalyzed, the index is past the offsets, or both offset components are
below 0.5 in magnitude; otherwise the translation warp under the configured
border mode (transparent promotes BGR input to BGRA first). -/
def apply_stabilization (st : PointStabilizer) (frame : BFrame) (idx : Nat) : BFrame :=
  if st.analyzed = false then frame
  else
    match st.offsets[idx]? with
    | none => frame
    | some o =>
      if |o.1| < 1/2 ∧ |o.2| < 1/2 then frame
      else
        match st.settings.border_mode with
        | BorderMode.transparent =>
            match frame with
            | BFrame.c3 i =>
                BFrame.c4 (warpTranslate4 (cvtBGR2BGRA i) o.1 o.2 false (0, 0, 0, 0))
            | BFrame.c4 i => BFrame.c4 (warpTranslate4 i o.1 o.2 false (0, 0, 0, 0))
        | BorderMode.replicate =>
            match frame with
            | BFrame.c3 i => BFrame.c3 (warpTranslate3 i o.1 o.2 true (0, 0, 0))
            | BFrame.c4 i => BFrame.c4 (warpTranslate4 i o.1 o.2 true (0, 0, 0, 0))
        | BorderMode.crop =>
            match frame with
            | BFrame.c3 i => BFrame.c3 (warpTranslate3 i o.1 o.2 false (0, 0, 0))
            | BFrame.c4 i => BFrame.c4 (warpTranslate4 i o.1 o.2 false (0, 0, 0, 0))

/-- A pure-green BGR pixel (keyed out by the default HSV range). -/
def greenP : BGRPix := (0, 255, 0)

/-- A white BGR pixel (kept by the default HSV range, saturation 0). -/
def whiteP : BGRPix := (255, 255, 255)

/-- A black BGR pixel. -/
def blackP : BGRPix := (0, 0, 0)

/-- Settings used by the mask-order counterexample: feathering and erosion on,
dilation and the color corrections off. -/
def s5 : ChromaKeySettings :=
  { feather := 1, spill_suppression := 0, defringe_transparent := 0,
    erode_size := 1, dilate_size := 0 }

/-- A 5x5 frame, green except for a single white pixel at the center. -/
def frame5 : Img BGRPix :=
  Img.mk 5 5 (fun y x => if y = 2 ∧ x = 2 then whiteP else greenP)

/-- Settings used by the crop counterexample: only feathering enabled. -/
def s2c : ChromaKeySettings :=
  { feather := 1, spill_suppression := 0, defringe_transparent := 0,
    erode_size := 0, dilate_size := 0 }

/-- A 3x3 frame, green except for a white rightmost column. -/
def frame3 : Img BGRPix :=
  Img.mk 3 3 (fun _ x => if x = 2 then whiteP else greenP)

/-- Per-pixel-only settings for the crop equivalence witness: no kernel stage
active, defringe (a pure per-pixel map) left on. -/
def s2w : ChromaKeySettings :=
  { feather := 0, erode_size := 0, dilate_size := 0,
    spill_suppression := 0, defringe_transparent := 1/2 }

/-- The default chroma-key settings object. -/
def sDef : ChromaKeySettings := {}

/-- A 2x2 all-green frame. -/
def frame2g : Img BGRPix := Img.mk 2 2 (fun _ _ => greenP)

/-- Settings with both color-correction strengths zero. -/
def s9 : ChromaKeySettings := { spill_suppression := 0, defringe_transparent := 0 }

/-- A concrete 1x1 frame for the no-op witnesses. -/
def wFrame1 : Img BGRPix := Img.mk 1 1 (fun _ _ => (10, 20, 30))

/-- A concrete 1x1 mask for the no-op witnesses. -/
def wMask1 : Img Nat := Img.mk 1 1 (fun _ _ => 128)

/-- A 2x2 frame, white at the top-left pixel, black elsewhere: the tracking
reference frame of the stabilizer witnesses. -/
def tframe0 : Img BGRPix :=
  Img.mk 2 2 (fun y x => if y = 0 ∧ x = 0 then whiteP else blackP)

/-- A 2x2 all-black frame: constant, so every correlation window has zero
variance and tracking is lost. -/
def tframe1 : Img BGRPix := Img.mk 2 2 (fun _ _ => blackP)

/-- Stabilization settings with the bounding box (0,0,2,2) set. -/
def sSet : StabilizationSettings := { bounding_box := some (0, 0, 2, 2) }

/-- A freshly constructed stabilizer with the box set and no analysis. -/
def stab0 : PointStabilizer := { settings := sSet }

/-- The template extracted from the reference frame for the witnesses. -/
def tpl0 : Img BGRPix := extract_template tframe0 (0, 0, 2, 2)

/-- A 1x2 template, white then black: nonzero variance, so matching it runs
the real per-placement correlation scan. -/
def tplWB : Img BGRPix := Img.mk 1 2 (fun _ x => if x = 0 then whiteP else blackP)

/-- Loop state after successfully tracking frame 0 in the witness video. -/
def as1 : AnalyzeState := AnalyzeState.mk [(0, 0)] [(0, 0, 2, 2)] (0, 0, 2, 2)

/-- A concrete 3-channel frame value for the apply_stabilization witness. -/
def bframe1 : BFrame := BFrame.c3 wFrame1

lemma inRangeHSV_eq_true (s : ChromaKeySettings) (hsv : Nat × Nat × Nat) :
    inRangeHSV s hsv = true ↔
      (s.h_min ≤ hsv.1 ∧ hsv.1 ≤ s.h_max ∧ s.s_min ≤ hsv.2.1 ∧ hsv.2.1 ≤ s.s_max ∧
       s.v_min ≤ hsv.2.2 ∧ hsv.2.2 ≤ s.v_max) := by
  simp [inRangeHSV, and_assoc]

lemma toU8_natCast (n : Nat) (h : n ≤ 255) : toU8 (n : Rat) = n := by
  unfold toU8 clipQ
  rw [min_eq_left (by exact_mod_cast h), max_eq_right (by positivity)]
  simp

lemma blendU8_zero (p c : Nat) : blendU8 p c 0 = toU8 (c : Rat) := by
  simp [blendU8]

lemma foldl_min_zero (l : List Nat) : l.foldl Nat.min 0 = 0 := by
  induction l with
  | nil => rfl
  | cons a t ih => simpa [Nat.zero_min] using ih

lemma foldl_max_zero (l : List Nat) (h : ∀ v ∈ l, v = 0) : l.foldl Nat.max 0 = 0 := by
  induction l with
  | nil => rfl
  | cons a t ih =>
      have ha : a = 0 := h a (List.mem_cons_self a t)
      subst ha
      simpa using ih (fun v hv => h v (List.mem_cons_of_mem _ hv))

lemma morphVals_mem {k hh ww : Nat} {m : Nat → Nat → Nat} {y x v : Nat}
    (hv : v ∈ morphVals k hh ww m y x) : ∃ yy xx, yy < hh ∧ xx < ww ∧ v = m yy xx := by
  unfold morphVals at hv
  rw [List.mem_flatMap] at hv
  obtain ⟨i, _, hi⟩ := hv
  rw [List.mem_filterMap] at hi
  obtain ⟨j, _, hj⟩ := hi
  dsimp only at hj
  split at hj
  · rename_i hcond
    simp only [Bool.and_eq_true, decide_eq_true_eq] at hcond
    obtain ⟨⟨⟨⟨_, h1⟩, h2⟩, h3⟩, h4⟩ := hcond
    refine ⟨((y : Int) + ((i : Int) - (k : Int))).toNat,
            ((x : Int) + ((j : Int) - (k : Int))).toNat, ?_, ?_, ?_⟩
    · omega
    · omega
    · exact (Option.some_inj.mp hj).symm
  · exact absurd hj (by simp)

lemma reflect101_lt (p : Int) (len : Nat) (h : 0 < len) : reflect101 p len < len := by
  unfold reflect101
  split
  · exact h
  · rename_i hlen
    have hm : (0 : Int) < ((2 * len - 2 : Nat) : Int) := by omega
    have h1 : 0 ≤ p % ((2 * len - 2 : Nat) : Int) := Int.emod_nonneg p (by omega)
    have h2 : p % ((2 * len - 2 : Nat) : Int) < ((2 * len - 2 : Nat) : Int) :=
      Int.emod_lt_of_pos p hm
    dsimp only
    split <;> omega

lemma gaussWeights_sum_pos (k : Nat) : 0 < (gaussWeights (2 * k + 1)).sum := by
  unfold gaussWeights
  split
  · decide
  · rw [List.range_succ_eq_map, List.map_cons, List.sum_cons]
    have : Nat.choose (2 * k + 1 - 1) 0 = 1 := Nat.choose_zero_right _
    omega

lemma erode_zeroPix (k : Nat) (img : Img Nat) (y x : Nat) (h0 : img.pix y x = 0) :
    (erode k img).pix y x = 0 := by
  simp [erode, h0, foldl_min_zero]

lemma dilate_zeroPix (k : Nat) (img : Img Nat)
    (hz : ∀ yy, yy < img.h → ∀ xx, xx < img.w → img.pix yy xx = 0)
    (y x : Nat) (h0 : img.pix y x = 0) : (dilate k img).pix y x = 0 := by
  simp only [dilate, h0]
  apply foldl_max_zero
  intro v hv
  obtain ⟨yy, xx, h1, h2, rfl⟩ := morphVals_mem hv
  exact hz yy h1 xx h2

lemma gaussianBlur_zeroPix (k : Nat) (img : Img Nat)
    (hz : ∀ yy, yy < img.h → ∀ xx, xx < img.w → img.pix yy xx = 0)
    (y x : Nat) (hy : y < img.h) (hx : x < img.w) : (gaussianBlur k img).pix y x = 0 := by
  simp only [gaussianBlur]
  have hzsum : ((List.range (2 * k + 1)).map (fun i =>
      ((List.range (2 * k + 1)).map (fun j =>
        (gaussWeights (2 * k + 1)).getD i 0 * (gaussWeights (2 * k + 1)).getD j 0 *
          img.pix (reflect101 ((y : Int) + (i : Int) - (k : Int)) img.h)
                  (reflect101 ((x : Int) + (j : Int) - (k : Int)) img.w))).sum)).sum = 0 := by
    apply List.sum_eq_zero
    intro a ha
    rw [List.mem_map] at ha
    obtain ⟨i, _, rfl⟩ := ha
    apply List.sum_eq_zero
    intro b hb
    rw [List.mem_map] at hb
    obtain ⟨j, _, rfl⟩ := hb
    rw [hz _ (reflect101_lt _ _ (by omega)) _ (reflect101_lt _ _ (by omega))]
    exact Nat.mul_zero _
  rw [hzsum]
  have ht : 0 < (gaussWeights (2 * k + 1)).sum * (gaussWeights (2 * k + 1)).sum :=
    Nat.mul_pos (gaussWeights_sum_pos k) (gaussWeights_sum_pos k)
  exact Nat.div_eq_of_lt (by omega)

lemma create_mask_zeroIn (s : ChromaKeySettings) (f : Img BGRPix)
    (hin : ∀ y, y < f.h → ∀ x, x < f.w → inRangeHSV s (bgr2hsv (f.pix y x)) = true) :
    ∀ y, y < f.h → ∀ x, x < f.w → (create_mask s f).pix y x = 0 := by
  intro y hy x hx
  simp [create_mask, hin y hy x hx]

lemma refine_mask_h (s : ChromaKeySettings) (m : Img Nat) : (refine_mask s m).h = m.h := by
  by_cases he : 0 < s.erode_size <;> by_cases hd : 0 < s.dilate_size <;>
    simp [refine_mask, erode, dilate, he, hd]

lemma refine_mask_w (s : ChromaKeySettings) (m : Img Nat) : (refine_mask s m).w = m.w := by
  by_cases he : 0 < s.erode_size <;> by_cases hd : 0 < s.dilate_size <;>
    simp [refine_mask, erode, dilate, he, hd]

lemma refine_mask_zeroIn (s : ChromaKeySettings) (m : Img Nat)
    (hz : ∀ y, y < m.h → ∀ x, x < m.w → m.pix y x = 0) :
    ∀ y, y < m.h → ∀ x, x < m.w → (refine_mask s m).pix y x = 0 := by
  intro y hy x hx
  by_cases he : 0 < s.erode_size <;> by_cases hd : 0 < s.dilate_size <;>
    simp only [refine_mask, he, hd, if_true, if_false, ite_true, ite_false]
  · exact dilate_zeroPix _ _
      (fun yy hyy xx hxx => erode_zeroPix _ _ _ _ (hz yy hyy xx hxx)) y x
      (erode_zeroPix _ _ _ _ (hz y hy x hx))
  · exact erode_zeroPix _ _ _ _ (hz y hy x hx)
  · exact dilate_zeroPix _ _ hz y x (hz y hy x hx)
  · exact hz y hy x hx

lemma mask_pipeline_zeroIn (s : ChromaKeySettings) (f : Img BGRPix)
    (hin : ∀ y, y < f.h → ∀ x, x < f.w → inRangeHSV s (bgr2hsv (f.pix y x)) = true) :
    ∀ y, y < f.h → ∀ x, x < f.w →
      (apply_feathering s (refine_mask s (create_mask s f))).pix y x = 0 := by
  have hr := refine_mask_zeroIn s (create_mask s f) (create_mask_zeroIn s f hin)
  have hr2 : ∀ yy, yy < (refine_mask s (create_mask s f)).h →
      ∀ xx, xx < (refine_mask s (create_mask s f)).w →
      (refine_mask s (create_mask s f)).pix yy xx = 0 := by
    rw [refine_mask_h, refine_mask_w]
    exact hr
  intro y hy x hx
  unfold apply_feathering
  by_cases h : s.feather = 0
  · simp only [if_pos h]
    exact hr y hy x hx
  · simp only [if_neg h]
    exact gaussianBlur_zeroPix _ _ hr2 y x
      (by rw [refine_mask_h]; exact hy) (by rw [refine_mask_w]; exact hx)

/-- Claim C7: for every frame and HSV settings, create_mask yields only the
values 0 and 255, and yields 0 exactly at the pixels whose HSV conversion
lies inside the inclusive box [h_min,h_max] x [s_min,s_max] x [v_min,v_max]. -/
theorem c7_create_mask_binary (s : ChromaKeySettings) (frame : Img BGRPix) (y x : Nat) :
    ((create_mask s frame).pix y x = 0 ∨ (create_mask s frame).pix y x = 255) ∧
    ((create_mask s frame).pix y x = 0 ↔
      (s.h_min ≤ (bgr2hsv (frame.pix y x)).1 ∧ (bgr2hsv (frame.pix y x)).1 ≤ s.h_max ∧
       s.s_min ≤ (bgr2hsv (frame.pix y x)).2.1 ∧ (bgr2hsv (frame.pix y x)).2.1 ≤ s.s_max ∧
       s.v_min ≤ (bgr2hsv (frame.pix y x)).2.2 ∧ (bgr2hsv (frame.pix y x)).2.2 ≤ s.v_max)) := by
  by_cases hc : inRangeHSV s (bgr2hsv (frame.pix y x)) = true
  · refine ⟨Or.inl (by simp [create_mask, hc]), ?_⟩
    simp only [create_mask]
    rw [if_pos hc]
    simpa using (inRangeHSV_eq_true _ _).mp hc
  · refine ⟨Or.inr (by simp [create_mask, hc]), ?_⟩
    simp only [create_mask]
    rw [if_neg hc]
    constructor
    · intro h
      exact absurd h (by norm_num)
    · intro h
      exact absurd ((inRangeHSV_eq_true _ _).mpr h) hc

/-- Claim C9: suppress_spill returns its frame bit-identically when
spill_suppression <= 0, and defringe_transparent_areas returns its frame
bit-identically when defringe_transparent <= 0. -/
theorem c9_strength_guards (s : ChromaKeySettings) (frame : Img BGRPix) (mask : Img Nat) :
    (s.spill_suppression ≤ 0 → suppress_spill s frame mask = frame) ∧
    (s.defringe_transparent ≤ 0 → defringe_transparent_areas s frame mask = frame) := by
  constructor <;> intro h
  · simp [suppress_spill, h]
  · simp [defringe_transparent_areas, h]

/-- Witness for C9 at a concrete frame, mask and zero-strength settings. -/
theorem c9_strength_guards_witness :
    suppress_spill s9 wFrame1 wMask1 = wFrame1 ∧
    defringe_transparent_areas s9 wFrame1 wMask1 = wFrame1 :=
  ⟨(c9_strength_guards s9 wFrame1 wMask1).1 (by decide),
   (c9_strength_guards s9 wFrame1 wMask1).2 (by decide)⟩

/-- Counterexample to C1 as stated: on a 5x5 frame (white center pixel on
green) with feather 1 and erode_size 1, the alpha channel process_frame
attaches at the center is 0, while the order the claim states —
refine_mask after apply_feathering — would give 32 there. -/
theorem c1_counterexample :
    ((process_frame s5 frame5).pix 2 2).2.2.2 = 0 ∧
    (refine_mask s5 (apply_feathering s5 (create_mask s5 frame5))).pix 2 2 = 32 := by
  decide

/-- Claim C1 (amended): process_frame builds its alpha mask as
apply_feathering (refine_mask (create_mask frame)) — refinement before
feathering — and the color channels are defringe after suppress_spill of the
input frame against that mask, reordered BGR to RGB. -/
theorem c1_mask_order (s : ChromaKeySettings) (frame : Img BGRPix) (y x : Nat) :
    (process_frame s frame).pix y x =
      (((defringe_transparent_areas s
           (suppress_spill s frame (apply_feathering s (refine_mask s (create_mask s frame))))
           (apply_feathering s (refine_mask s (create_mask s frame)))).pix y x).2.2,
       ((defringe_transparent_areas s
           (suppress_spill s frame (apply_feathering s (refine_mask s (create_mask s frame))))
           (apply_feathering s (refine_mask s (create_mask s frame)))).pix y x).2.1,
       ((defringe_transparent_areas s
           (suppress_spill s frame (apply_feathering s (refine_mask s (create_mask s frame))))
           (apply_feathering s (refine_mask s (create_mask s frame)))).pix y x).1,
       (apply_feathering s (refine_mask s (create_mask s frame))).pix y x) := rfl

/-- Counterexample to C2 as stated: with feathering enabled (a kernel
operation), keying the cropped left 2x3 portion of a 3x3 frame differs at
pixel (0,1) from cropping the keyed full frame, although the crop rectangle
lies fully inside the frame. -/
theorem c2_counterexample :
    0 + 2 ≤ frame3.w ∧ 0 + 3 ≤ frame3.h ∧
    (process_frame s2c (cropImg frame3 0 0 2 3)).pix 0 1 ≠
      (cropImg (process_frame s2c frame3) 0 0 2 3).pix 0 1 := by
  decide

/-- Claim C2 (amended): crop-then-key equals key-then-crop pixel for pixel
when every enabled stage is per-pixel — feathering, erosion, dilation and
spill suppression off (the defringe stage is per-pixel and may stay on);
with any kernel stage enabled, pixels near the crop boundary may differ. -/
theorem c2_crop_key_commute (s : ChromaKeySettings) (f : Img BGRPix)
    (cx cy cw ch : Nat) (_hx : cx + cw ≤ f.w) (_hy : cy + ch ≤ f.h)
    (hft : s.feather = 0) (her : s.erode_size = 0) (hdl : s.dilate_size = 0)
    (hsp : s.spill_suppression ≤ 0) :
    (process_frame s (cropImg f cx cy cw ch)).h =
      (cropImg (process_frame s f) cx cy cw ch).h ∧
    (process_frame s (cropImg f cx cy cw ch)).w =
      (cropImg (process_frame s f) cx cy cw ch).w ∧
    ∀ y x, (process_frame s (cropImg f cx cy cw ch)).pix y x =
      (cropImg (process_frame s f) cx cy cw ch).pix y x := by
  refine ⟨rfl, rfl, fun y x => ?_⟩
  by_cases hdt : s.defringe_transparent ≤ 0 <;>
    simp [process_frame, refine_mask, apply_feathering, suppress_spill,
          defringe_transparent_areas, create_mask, cropImg, hft, her, hdl, hsp, hdt]

/-- Witness for C2 (amended) at the concrete 3x3 frame and per-pixel
settings with defringe active. -/
theorem c2_crop_key_commute_witness :
    (process_frame s2w (cropImg frame3 0 0 2 3)).h =
      (cropImg (process_frame s2w frame3) 0 0 2 3).h ∧
    (process_frame s2w (cropImg frame3 0 0 2 3)).w =
      (cropImg (process_frame s2w frame3) 0 0 2 3).w ∧
    ∀ y x, (process_frame s2w (cropImg frame3 0 0 2 3)).pix y x =
      (cropImg (process_frame s2w frame3) 0 0 2 3).pix y x :=
  c2_crop_key_commute s2w frame3 0 0 2 3 (by decide) (by decide) (by decide)
    (by decide) (by decide) (by decide)

lemma preview_checker_of_maskZero (s : ChromaKeySettings) (f : Img BGRPix) (y x : Nat)
    (hz : (apply_feathering s (refine_mask s (create_mask s f))).pix y x = 0) :
    (preview_frame s f true none).pix y x = (checkerboardImg f.h f.w).pix y x := by
  rw [show (preview_frame s f true none).pix y x =
      (blendU8 ((defringe_transparent_areas s
          (suppress_spill s f (apply_feathering s (refine_mask s (create_mask s f))))
          (apply_feathering s (refine_mask s (create_mask s f)))).pix y x).1
        ((checkerboardImg f.h f.w).pix y x).1
        (((apply_feathering s (refine_mask s (create_mask s f))).pix y x : Rat) / 255),
       blendU8 ((defringe_transparent_areas s
          (suppress_spill s f (apply_feathering s (refine_mask s (create_mask s f))))
          (apply_feathering s (refine_mask s (create_mask s f)))).pix y x).2.1
        ((checkerboardImg f.h f.w).pix y x).2.1
        (((apply_feathering s (refine_mask s (create_mask s f))).pix y x : Rat) / 255),
       blendU8 ((defringe_transparent_areas s
          (suppress_spill s f (apply_feathering s (refine_mask s (create_mask s f))))
          (apply_feathering s (refine_mask s (create_mask s f)))).pix y x).2.2
        ((checkerboardImg f.h f.w).pix y x).2.2
        (((apply_feathering s (refine_mask s (create_mask s f))).pix y x : Rat) / 255))
    from rfl, hz]
  norm_num [blendU8_zero]
  simp only [checkerboardImg]
  split <;> norm_num [toU8, clipQ] <;> rfl

/-- Claim C8: when every pixel of the frame lies inside the HSV key range,
the full mask pipeline is identically zero in bounds, and preview_frame with
the checkerboard on and no background color reproduces the generated
checkerboard exactly. -/
theorem c8_keyed_checkerboard (s : ChromaKeySettings) (f : Img BGRPix)
    (hin : ∀ y, y < f.h → ∀ x, x < f.w → inRangeHSV s (bgr2hsv (f.pix y x)) = true) :
    (∀ y, y < f.h → ∀ x, x < f.w →
      (apply_feathering s (refine_mask s (create_mask s f))).pix y x = 0) ∧
    (∀ y, y < f.h → ∀ x, x < f.w →
      (preview_frame s f true none).pix y x = (checkerboardImg f.h f.w).pix y x) := by
  have hm := mask_pipeline_zeroIn s f hin
  exact ⟨hm, fun y hy x hx => preview_checker_of_maskZero s f y x (hm y hy x hx)⟩

/-- Witness for C8 at a concrete 2x2 all-green frame with default settings. -/
theorem c8_keyed_checkerboard_witness :
    (∀ y, y < frame2g.h → ∀ x, x < frame2g.w →
      (apply_feathering sDef (refine_mask sDef (create_mask sDef frame2g))).pix y x = 0) ∧
    (∀ y, y < frame2g.h → ∀ x, x < frame2g.w →
      (preview_frame sDef frame2g true none).pix y x =
        (checkerboardImg frame2g.h frame2g.w).pix y x) :=
  c8_keyed_checkerboard sDef frame2g (by decide)

lemma analyzeStep_offsets_length (s : StabilizationSettings) (templ : Img BGRPix)
    (refC : Rat × Rat) (bbox : TrackBox) (st : AnalyzeState) (frame : Img BGRPix) :
    (analyzeStep s templ refC bbox st frame).offsets.length = st.offsets.length + 1 := by
  unfold analyzeStep
  dsimp only
  split
  · simp
  · split <;> simp

lemma analyzeStep_boxes_length (s : StabilizationSettings) (templ : Img BGRPix)
    (refC : Rat × Rat) (bbox : TrackBox) (st : AnalyzeState) (frame : Img BGRPix) :
    (analyzeStep s templ refC bbox st frame).boxes.length = st.boxes.length + 1 := by
  unfold analyzeStep
  dsimp only
  split
  · simp
  · split <;> simp

lemma analyze_foldl_lengths (s : StabilizationSettings) (templ : Img BGRPix)
    (refC : Rat × Rat) (bbox : TrackBox) (frames : List (Img BGRPix)) :
    ∀ init : AnalyzeState,
      (frames.foldl (analyzeStep s templ refC bbox) init).offsets.length =
        init.offsets.length + frames.length ∧
      (frames.foldl (analyzeStep s templ refC bbox) init).boxes.length =
        init.boxes.length + frames.length := by
  induction frames with
  | nil => intro init; simp
  | cons fr t ih =>
      intro init
      simp only [List.foldl_cons, List.length_cons]
      refine ⟨?_, ?_⟩
      · rw [(ih _).1, analyzeStep_offsets_length]
        omega
      · rw [(ih _).2, analyzeStep_boxes_length]
        omega

lemma analyze_video_success (st : PointStabilizer) (frames : List (Img BGRPix))
    (bbox : TrackBox) (hb : st.settings.bounding_box = some bbox)
    (hr : st.settings.reference_frame_idx < frames.length) :
    (analyze_video st (some frames)).2 = true := by
  simp [analyze_video, hb, List.getElem?_eq_getElem hr]

lemma analyze_video_spec (st : PointStabilizer) (video : Option (List (Img BGRPix))) :
    ((analyze_video st video).2 = true ↔
      st.settings.bounding_box.isSome = true ∧
      ∃ frames, video = some frames ∧
        st.settings.reference_frame_idx < frames.length) ∧
    (∀ frames, video = some frames → (analyze_video st video).2 = true →
      (analyze_video st video).1.offsets.length = frames.length ∧
      (analyze_video st video).1.tracking_boxes.length = frames.length ∧
      (analyze_video st video).1.analyzed = true) := by
  rcases hbb : st.settings.bounding_box with _ | bbox
  · constructor
    · simp [analyze_video, hbb]
    · intro frames hv htrue
      rw [hv] at htrue
      simp [analyze_video, hbb] at htrue
  · rcases video with _ | frames
    · constructor
      · simp [analyze_video, hbb]
      · intro frames hv
        exact absurd hv (by simp)
    · rcases hget : frames[st.settings.reference_frame_idx]? with _ | refFrame
      · have hlen : frames.length ≤ st.settings.reference_frame_idx :=
          List.getElem?_eq_none_iff.mp hget
        constructor
        · simp only [analyze_video, hbb, hget]
          constructor
          · intro h
            exact absurd h (by simp)
          · rintro ⟨_, fs, hfs, hlt⟩
            have heq : frames = fs := by injection hfs
            subst heq
            omega
        · intro fs hv htrue
          have heq : frames = fs := by injection hv
          subst heq
          simp [analyze_video, hbb, hget] at htrue
      · have hlt : st.settings.reference_frame_idx < frames.length := by
          by_contra hcon
          rw [List.getElem?_eq_none (by omega)] at hget
          exact absurd hget (by simp)
        constructor
        · simp only [analyze_video, hbb, hget]
          constructor
          · intro _
            exact ⟨by simp, frames, rfl, hlt⟩
          · intro _
            trivial
        · intro fs hv htrue
          have heq : frames = fs := by injection hv
          subst heq
          simp only [analyze_video, hbb, hget]
          refine ⟨?_, ?_, trivial⟩
          · rw [(analyze_foldl_lengths _ _ _ _ frames _).1]
            simp
          · rw [(analyze_foldl_lengths _ _ _ _ frames _).2]
            simp

/-- Counterexample to C3 as stated: a stabilizer whose bounding box is set,
run on a video that opens but contains no frames (so the reference-frame read
fails), returns false — a third failure case beyond the two the claim lists. -/
theorem c3_counterexample :
    stab0.settings.bounding_box.isSome = true ∧
    (analyze_video stab0 (some ([] : List (Img BGRPix)))).2 = false := by
  decide

/-- Claim C3 (amended): analyze_video returns false exactly when the bounding
box is unset, the file cannot be opened, or the reference frame cannot be
read (its index is past the end); in every other case it records one offset
and one tracked box per frame, marks the state analyzed and returns true. -/
theorem c3_analyze_video_result (st : PointStabilizer)
    (video : Option (List (Img BGRPix))) :
    ((analyze_video st video).2 = true ↔
      st.settings.bounding_box.isSome = true ∧
      ∃ frames, video = some frames ∧
        st.settings.reference_frame_idx < frames.length) ∧
    (∀ frames, video = some frames → (analyze_video st video).2 = true →
      (analyze_video st video).1.offsets.length = frames.length ∧
      (analyze_video st video).1.tracking_boxes.length = frames.length ∧
      (analyze_video st video).1.analyzed = true) :=
  analyze_video_spec st video

/-- Witness for C3 (amended) on a concrete 2-frame video. -/
theorem c3_analyze_video_result_witness :
    (analyze_video stab0 (some [tframe0, tframe1])).2 = true ∧
    (analyze_video stab0 (some [tframe0, tframe1])).1.offsets.length = 2 ∧
    (analyze_video stab0 (some [tframe0, tframe1])).1.tracking_boxes.length = 2 ∧
    (analyze_video stab0 (some [tframe0, tframe1])).1.analyzed = true := by
  have h := c3_analyze_video_result stab0 (some [tframe0, tframe1])
  have htrue : (analyze_video stab0 (some [tframe0, tframe1])).2 = true :=
    h.1.mpr ⟨by decide, [tframe0, tframe1], rfl, by decide⟩
  have h2 := h.2 [tframe0, tframe1] rfl htrue
  exact ⟨htrue, h2.1, h2.2.1, h2.2.2⟩

/-- Claim C4: apply_stabilization returns the input frame itself (same value,
same channel count) whenever the stabilizer is unanalyzed, or the frame index
is out of range of the precomputed offsets, or the stored offset has both
components below 0.5 in magnitude. -/
theorem c4_apply_stabilization_identity (st : PointStabilizer) (frame : BFrame)
    (idx : Nat)
    (h : st.analyzed = false ∨ st.offsets.length ≤ idx ∨
      ∃ o, st.offsets[idx]? = some o ∧ |o.1| < 1/2 ∧ |o.2| < 1/2) :
    apply_stabilization st frame idx = frame := by
  unfold apply_stabilization
  rcases h with h | h | ⟨o, hg, h1, h2⟩
  · rw [if_pos h]
  · cases ha : st.analyzed
    · rw [if_pos rfl]
    · rw [if_neg (by simp), List.getElem?_eq_none h]
  · cases ha : st.analyzed
    · rw [if_pos rfl]
    · rw [if_neg (by simp), hg]
      exact if_pos ⟨h1, h2⟩

/-- Witness for C4: an unanalyzed stabilizer leaves a concrete frame
untouched. -/
theorem c4_apply_stabilization_identity_witness :
    apply_stabilization stab0 bframe1 0 = bframe1 :=
  c4_apply_stabilization_identity stab0 bframe1 0 (Or.inl rfl)

/-- Claim C5: when both the constrained search and the full-frame fallback
fail for a frame, the analyze_video loop appends exactly the previously
recorded offset and tracked box, and (completion) the analysis pass still
returns true whenever the bounding box is set and the reference frame is
readable. -/
theorem c5_tracking_loss_reuse (s : StabilizationSettings) (templ : Img BGRPix)
    (refC : Rat × Rat) (bbox : TrackBox) (st : AnalyzeState) (frame : Img BGRPix)
    (o : Rat × Rat) (lb : TrackBox)
    (ho : st.offsets.getLast? = some o) (hb : st.boxes.getLast? = some lb)
    (h1 : match_template s frame templ (some (searchRegionOf st.last_box)) = none)
    (h2 : match_template s frame templ none = none) :
    (analyzeStep s templ refC bbox st frame).offsets = st.offsets ++ [o] ∧
    (analyzeStep s templ refC bbox st frame).boxes = st.boxes ++ [lb] ∧
    (∀ stp frames bbox2, stp.settings.bounding_box = some bbox2 →
      stp.settings.reference_frame_idx < frames.length →
      (analyze_video stp (some frames)).2 = true) := by
  refine ⟨?_, ?_, fun stp frames bbox2 hbb hlt =>
    analyze_video_success stp frames bbox2 hbb hlt⟩ <;>
  simp [analyzeStep, h1, h2, ho, hb]

/-- Witness for C5: on the concrete 2-frame video the constant second frame
loses tracking and the offset and box recorded for the first frame are repeated, and the
concrete analysis pass returns true. -/
theorem c5_tracking_loss_reuse_witness :
    (analyzeStep sSet tpl0 (1, 1) (0, 0, 2, 2) as1 tframe1).offsets =
      as1.offsets ++ [(0, 0)] ∧
    (analyzeStep sSet tpl0 (1, 1) (0, 0, 2, 2) as1 tframe1).boxes =
      as1.boxes ++ [(0, 0, 2, 2)] ∧
    (∀ stp frames bbox2, stp.settings.bounding_box = some bbox2 →
      stp.settings.reference_frame_idx < frames.length →
      (analyze_video stp (some frames)).2 = true) :=
  c5_tracking_loss_reuse sSet tpl0 (1, 1) (0, 0, 2, 2) as1 tframe1 (0, 0) (0, 0, 2, 2)
    (by decide) (by decide) (by decide) (by decide)

/-- Claim C6: match_template returns a box only when the best
normalized-correlation score over the searched area is at least
match_threshold, and returns none whenever that best score is below the
threshold. -/
theorem c6_match_template_threshold (s : StabilizationSettings)
    (frame templ : Img BGRPix) (region : Option (Int × Int × Int × Int)) :
    (match_template s frame templ region ≠ none →
      scoreLtQ (bestMatch (resolveSearch (grayImg frame) (grayImg templ).w
        (grayImg templ).h region).1 (grayImg templ)).1 s.match_threshold = false) ∧
    (scoreLtQ (bestMatch (resolveSearch (grayImg frame) (grayImg templ).w
        (grayImg templ).h region).1 (grayImg templ)).1 s.match_threshold = true →
      match_template s frame templ region = none) := by
  by_cases hsz : (resolveSearch (grayImg frame) (grayImg templ).w (grayImg templ).h
      region).1.h < (grayImg templ).h ∨
      (resolveSearch (grayImg frame) (grayImg templ).w (grayImg templ).h
      region).1.w < (grayImg templ).w
  · constructor
    · intro hne
      exact absurd (by simp [match_template, hsz]) hne
    · intro _
      simp [match_template, hsz]
  · constructor
    · intro hne
      cases hb : scoreLtQ (bestMatch (resolveSearch (grayImg frame) (grayImg templ).w
          (grayImg templ).h region).1 (grayImg templ)).1 s.match_threshold
      · rfl
      · exact absurd (by simp [match_template, hsz, hb]) hne
    · intro hth
      simp [match_template, hsz, hth]

/-- The zero-variance-template special case of the library, captured by the
model: a constant all-black template over any frame yields the all-1.0
result matrix, so the match succeeds at (0,0) instead of reporting a loss. -/
lemma match_template_flat_template :
    match_template sSet tframe0 tframe1 none = some (0, 0, 2, 2) := by
  decide

/-- Witness for C6: under a non-constant (nonzero-variance) template, every
window of the all-black frame is flat and scores 0, below the 0.5 threshold,
so the concrete match returns none. -/
theorem c6_match_template_threshold_witness :
    match_template sSet tframe1 tplWB none = none :=
  (c6_match_template_threshold sSet tframe1 tplWB none).2 (by decide)

/-- Claim C10: each analyze_video loop iteration appends exactly one offset
and one tracked box, so after a successful analysis the two lists have equal
length, and get_offset and get_tracked_box agree on which indices are in
range. -/
theorem c10_parallel_lists (s : StabilizationSettings) (templ : Img BGRPix)
    (refC : Rat × Rat) (bbox : TrackBox) :
    (∀ st frame,
      (analyzeStep s templ refC bbox st frame).offsets.length =
        st.offsets.length + 1 ∧
      (analyzeStep s templ refC bbox st frame).boxes.length =
        st.boxes.length + 1) ∧
    (∀ (stp : PointStabilizer) (video : Option (List (Img BGRPix))),
      (analyze_video stp video).2 = true →
      (analyze_video stp video).1.offsets.length =
        (analyze_video stp video).1.tracking_boxes.length) ∧
    (∀ (stp : PointStabilizer) (idx : Nat),
      stp.offsets.length = stp.tracking_boxes.length →
      ((idx < stp.offsets.length) ↔ (idx < stp.tracking_boxes.length))) := by
  refine ⟨fun st frame => ⟨analyzeStep_offsets_length s templ refC bbox st frame,
      analyzeStep_boxes_length s templ refC bbox st frame⟩, ?_, ?_⟩
  · intro stp video htrue
    rcases video with _ | frames
    · rcases hbb : stp.settings.bounding_box with _ | b <;>
        simp [analyze_video, hbb] at htrue
    · have h := (analyze_video_spec stp (some frames)).2 frames rfl htrue
      rw [h.1, h.2.1]
  · intro stp idx h
    rw [h]

/-- Witness for C10 at the concrete loop state and 2-frame video. -/
theorem c10_parallel_lists_witness :
    ((analyzeStep sSet tpl0 (1, 1) (0, 0, 2, 2) as1 tframe1).offsets.length =
      as1.offsets.length + 1 ∧
     (analyzeStep sSet tpl0 (1, 1) (0, 0, 2, 2) as1 tframe1).boxes.length =
      as1.boxes.length + 1) ∧
    (analyze_video stab0 (some [tframe0, tframe1])).1.offsets.length =
      (analyze_video stab0 (some [tframe0, tframe1])).1.tracking_boxes.length ∧
    (0 < stab0.offsets.length ↔ 0 < stab0.tracking_boxes.length) := by
  have h := c10_parallel_lists sSet tpl0 (1, 1) (0, 0, 2, 2)
  exact ⟨h.1 as1 tframe1,
    h.2.1 stab0 (some [tframe0, tframe1]) (by decide),
    h.2.2 stab0 0 rfl⟩

end Limeout
